import Mathlib

/-!
Verification of the Nucleus_V1 dual-path mesh transport core.

Shallow embedding of the Python sources into Lean 4:

* `NucleusPath`    — per-remote hysteretic mode machine
  (`mesh_controller/mesh_controller.py`, `ogm_monitor/enhanced_ogm_monitor.py`)
* `NucleusDedup`   — deduplication ring
  (`tak_transmission/atak_module/atak_handler.py`)
* `NucleusATAK`    — egress/ingress processing of the ATAK handler
* `NucleusPM`      — the `new_implementation/packet_manager.py` sender
* `NucleusRH`      — the reference-counted ledger of
  `reticulum_module/reticulum_handler.py`
-/

namespace NucleusPath

/-- Routing mode of a remote node.  The source uses the strings `"WIFI"`
(primary mesh) and `"LORA"` (overlay). -/
inductive Mode where
  | WIFI
  | LORA
deriving DecidableEq, Repr

/-- `FAILURE_THRESHOLD = 3.0` seconds without OGMs to consider a failure
(`mesh_controller.py` line 10, `enhanced_ogm_monitor.py` line 11). -/
def FAILURE_THRESHOLD : ℚ := 3

/-- `FAILURE_COUNT = 3` consecutive failures to switch to LORA. -/
def FAILURE_COUNT : Nat := 3

/-- `RECOVERY_COUNT = 10` consecutive good readings to switch back to WIFI. -/
def RECOVERY_COUNT : Nat := 10

/-- Per-remote hysteresis state: mode plus the two counters
(`mesh_controller.py` lines 56-61, `enhanced_ogm_monitor.py` lines 145-153). -/
structure NodeState where
  mode : Mode
  failure_count : Nat
  good_count : Nat
deriving DecidableEq, Repr

/-- State of a freshly added remote: `mode 'WIFI'`, both counters zero
(`mesh_controller.py` lines 56-61, `enhanced_ogm_monitor.py` lines 150-153). -/
def initNodeState : NodeState :=
  { mode := Mode.WIFI, failure_count := 0, good_count := 0 }

/-- One tick of the per-remote state machine.  `lastSeen` is the node's
`last_seen` value in seconds when the node appears in the observation feed,
`none` when it is absent.  Translated from `enhanced_ogm_monitor.py`
lines 162-183 (the observed branch is identical to
`mesh_controller.py` lines 63-73; the `none` branch is lines 179-183,
where an unseen node gets a failure increment). -/
def update_node_status (lastSeen : Option ℚ) (s : NodeState) : NodeState :=
  match lastSeen with
  | some t =>
      if t > FAILURE_THRESHOLD then
        let fc := s.failure_count + 1
        { mode := if fc ≥ FAILURE_COUNT then Mode.LORA else s.mode,
          failure_count := fc, good_count := 0 }
      else
        let gc := s.good_count + 1
        { mode := if gc ≥ RECOVERY_COUNT then Mode.WIFI else s.mode,
          failure_count := 0, good_count := gc }
  | none =>
      let fc := s.failure_count + 1
      { mode := if fc ≥ FAILURE_COUNT then Mode.LORA else s.mode,
        failure_count := fc, good_count := 0 }

/-- An observation that the code counts as a failure: the node is absent
from the feed, or its `last_seen` exceeds `FAILURE_THRESHOLD`. -/
def isFailureObs (o : Option ℚ) : Bool :=
  match o with
  | none => true
  | some t => decide (t > FAILURE_THRESHOLD)

/-- Run a sequence of ticks from a given state. -/
def runTicks (obs : List (Option ℚ)) (s : NodeState) : NodeState :=
  obs.foldl (fun st o => update_node_status o st) s

/-- States of the per-remote machine reachable from the initial state. -/
inductive Reachable : NodeState → Prop where
  | init : Reachable initNodeState
  | step (s : NodeState) (o : Option ℚ) : Reachable s → Reachable (update_node_status o s)

theorem failure_step (s : NodeState) (o : Option ℚ) (h : isFailureObs o = true) :
    update_node_status o s =
      { mode := if s.failure_count + 1 ≥ FAILURE_COUNT then Mode.LORA else s.mode,
        failure_count := s.failure_count + 1, good_count := 0 } := by
  cases o with
  | none => rfl
  | some t =>
      simp only [isFailureObs, decide_eq_true_eq] at h
      simp [update_node_status, h]

theorem good_step (s : NodeState) (t : ℚ) (h : ¬ t > FAILURE_THRESHOLD) :
    update_node_status (some t) s =
      { mode := if s.good_count + 1 ≥ RECOVERY_COUNT then Mode.WIFI else s.mode,
        failure_count := 0, good_count := s.good_count + 1 } := by
  simp [update_node_status, h]

/-- Counter bounds along every reachable state: in `WIFI` mode the failure
counter has not yet reached `FAILURE_COUNT`, in `LORA` mode the good counter
has not yet reached `RECOVERY_COUNT`. -/
theorem reachable_bounds (s : NodeState) (h : Reachable s) :
    (s.mode = Mode.WIFI → s.failure_count < FAILURE_COUNT) ∧
    (s.mode = Mode.LORA → s.good_count < RECOVERY_COUNT) := by
  induction h with
  | init => simp [initNodeState, FAILURE_COUNT, RECOVERY_COUNT]
  | step s o _ ih =>
      cases o with
      | none =>
          simp only [update_node_status]
          constructor
          · intro hm
            by_cases hfc : s.failure_count + 1 ≥ FAILURE_COUNT
            · simp [hfc] at hm
            · omega
          · intro _; simp [RECOVERY_COUNT]
      | some t =>
          by_cases ht : t > FAILURE_THRESHOLD
          · simp only [update_node_status, if_pos ht]
            constructor
            · intro hm
              by_cases hfc : s.failure_count + 1 ≥ FAILURE_COUNT
              · simp [hfc] at hm
              · omega
            · intro _; simp [RECOVERY_COUNT]
          · simp only [update_node_status, if_neg ht]
            constructor
            · intro _; simp [FAILURE_COUNT]
            · intro hm
              by_cases hgc : s.good_count + 1 ≥ RECOVERY_COUNT
              · simp [hgc] at hm
              · omega

/-- **C1.** The per-remote transition is the hysteresis machine with
thresholds 3.0 s / 3 / 10: fresh remotes start in `WIFI` (primary) with zero
counters; a failure observation (absence, or `last_seen > 3.0`) increments
`failure_count` and zeroes `good_count`, flipping a `WIFI` remote to `LORA`
(overlay) exactly when the counter reaches 3; a good observation
(`last_seen ≤ 3.0`) increments `good_count` and zeroes `failure_count`,
flipping a `LORA` remote to `WIFI` exactly when the counter reaches 10, so
from the initial state 3 bad ticks give `LORA` and then 9 good ticks stay
`LORA` while the 10th gives `WIFI`. -/
theorem hysteresis_machine_spec :
    (initNodeState = { mode := Mode.WIFI, failure_count := 0, good_count := 0 }) ∧
    (FAILURE_THRESHOLD = 3 ∧ FAILURE_COUNT = 3 ∧ RECOVERY_COUNT = 10) ∧
    (∀ s o, isFailureObs o = true →
      (update_node_status o s).failure_count = s.failure_count + 1 ∧
      (update_node_status o s).good_count = 0) ∧
    (∀ s t, ¬ t > FAILURE_THRESHOLD →
      (update_node_status (some t) s).good_count = s.good_count + 1 ∧
      (update_node_status (some t) s).failure_count = 0) ∧
    (∀ s o, Reachable s → s.mode = Mode.WIFI → isFailureObs o = true →
      ((update_node_status o s).mode = Mode.LORA ↔
        (update_node_status o s).failure_count = FAILURE_COUNT)) ∧
    (∀ s t, Reachable s → s.mode = Mode.LORA → ¬ t > FAILURE_THRESHOLD →
      ((update_node_status (some t) s).mode = Mode.WIFI ↔
        (update_node_status (some t) s).good_count = RECOVERY_COUNT)) ∧
    (∀ s, update_node_status none s = update_node_status (some 999) s) ∧
    (runTicks (List.replicate 2 (some 5)) initNodeState).mode = Mode.WIFI ∧
    (runTicks (List.replicate 3 (some 5)) initNodeState).mode = Mode.LORA ∧
    (runTicks (List.replicate 3 (some 5) ++ List.replicate 9 (some (mkRat 1 2)))
        initNodeState).mode = Mode.LORA ∧
    (runTicks (List.replicate 3 (some 5) ++ List.replicate 10 (some (mkRat 1 2)))
        initNodeState).mode = Mode.WIFI := by
  refine ⟨rfl, ⟨rfl, rfl, rfl⟩, ?_, ?_, ?_, ?_, ?_, ?_, ?_, ?_, ?_⟩
  · intro s o h; rw [failure_step s o h]; exact ⟨rfl, rfl⟩
  · intro s t h; rw [good_step s t h]; exact ⟨rfl, rfl⟩
  · intro s o hr hm h
    have hb := (reachable_bounds s hr).1 hm
    rw [failure_step s o h]
    simp only
    constructor
    · intro hl
      by_cases hfc : s.failure_count + 1 ≥ FAILURE_COUNT
      · omega
      · simp [hfc, hm] at hl
    · intro he
      have : s.failure_count + 1 ≥ FAILURE_COUNT := by omega
      simp [this]
  · intro s t hr hm h
    have hb := (reachable_bounds s hr).2 hm
    rw [good_step s t h]
    simp only
    constructor
    · intro hl
      by_cases hgc : s.good_count + 1 ≥ RECOVERY_COUNT
      · omega
      · simp [hgc, hm] at hl
    · intro he
      have : s.good_count + 1 ≥ RECOVERY_COUNT := by omega
      simp [this]
  · intro s
    have : (999 : ℚ) > FAILURE_THRESHOLD := by norm_num [FAILURE_THRESHOLD]
    simp [update_node_status, this]
  · decide
  · decide
  · decide
  · decide

/-- Witness for `hysteresis_machine_spec`: the "exactly at 3" conjunct applied
at the initial state with a failed observation. -/
theorem hysteresis_machine_spec_witness :
    (update_node_status none initNodeState).mode = Mode.LORA ↔
      (update_node_status none initNodeState).failure_count = FAILURE_COUNT :=
  hysteresis_machine_spec.2.2.2.2.1 initNodeState none Reachable.init rfl rfl

/-- **C7.** Along every reachable state of the per-remote hysteresis machine,
`failure_count` and `good_count` are never both positive: every tick that
increments one counter zeroes the other. -/
theorem counters_never_both_positive (s : NodeState) (h : Reachable s) :
    s.failure_count = 0 ∨ s.good_count = 0 := by
  induction h with
  | init => left; rfl
  | step s o _ _ =>
      cases o with
      | none => right; rfl
      | some t =>
          by_cases ht : t > FAILURE_THRESHOLD
          · right; simp [update_node_status, ht]
          · left; simp [update_node_status, ht]

/-- Witness for `counters_never_both_positive`: the invariant at the state
reached after one failure tick from the initial state. -/
theorem counters_never_both_positive_witness :
    (update_node_status none initNodeState).failure_count = 0 ∨
      (update_node_status none initNodeState).good_count = 0 :=
  counters_never_both_positive _ (Reachable.step _ none Reachable.init)

end NucleusPath

namespace NucleusDedup

/-- `self.MAX_RECENT_PACKETS = 1000` — capacity of the dedup deque
(`atak_handler.py` lines 323-324: `deque(maxlen=self.MAX_RECENT_PACKETS)`). -/
def MAX_RECENT_PACKETS : Nat := 1000

/-- One observation of a content digest against the dedup ring, the list
holding the oldest digest first.  Translated from `atak_handler.py`
lines 389-395: membership test, then `deque.append`, which with a full
`maxlen` deque discards the leftmost (oldest) element.  Returns the
duplicate flag and the new ring. -/
def observeHash (ring : List Nat) (h : Nat) : Bool × List Nat :=
  if h ∈ ring then (true, ring)
  else if ring.length < MAX_RECENT_PACKETS then (false, ring ++ [h])
  else (false, ring.tail ++ [h])

/-- `ATAKHandler.is_duplicate(data)`: hash the packet bytes and observe the
digest.  The MD5 digest function is a parameter of the embedding. -/
def is_duplicate (md5 : List Nat → Nat) (ring : List Nat) (data : List Nat) :
    Bool × List Nat :=
  observeHash ring (md5 data)

/-- Fold a stream of digests through the ring. -/
def runObserve (hs : List Nat) (ring : List Nat) : List Nat :=
  hs.foldl (fun r h => (observeHash r h).2) ring

theorem observeHash_fresh_full (ring : List Nat) (h : Nat) (hm : h ∉ ring)
    (hl : ¬ ring.length < MAX_RECENT_PACKETS) :
    observeHash ring h = (false, ring.tail ++ [h]) := by
  simp [observeHash, hm, hl]

theorem observeHash_fresh_spacious (ring : List Nat) (h : Nat) (hm : h ∉ ring)
    (hl : ring.length < MAX_RECENT_PACKETS) :
    observeHash ring h = (false, ring ++ [h]) := by
  simp [observeHash, hm, hl]

/-- Observing the distinct digests `0, …, n-1` from an empty ring leaves
exactly the most recent `MAX_RECENT_PACKETS` of them, in order. -/
theorem runObserve_range (n : Nat) :
    runObserve (List.range n) [] =
      (List.range n).drop (n - MAX_RECENT_PACKETS) := by
  have hM : MAX_RECENT_PACKETS = 1000 := rfl
  induction n with
  | zero => rfl
  | succ n ih =>
      have hstep : runObserve (List.range (n + 1)) [] =
          (observeHash (runObserve (List.range n) []) n).2 := by
        rw [List.range_succ, runObserve, List.foldl_append]
        rfl
      have hmem : n ∉ runObserve (List.range n) [] := by
        rw [ih]
        intro hc
        have := List.mem_range.mp (List.mem_of_mem_drop hc)
        omega
      have hlen : (runObserve (List.range n) []).length =
          n - (n - MAX_RECENT_PACKETS) := by
        rw [ih, List.length_drop, List.length_range]
      by_cases hcap : n < MAX_RECENT_PACKETS
      · have hsp : (runObserve (List.range n) []).length < MAX_RECENT_PACKETS := by
          rw [hlen]; omega
        rw [hstep, observeHash_fresh_spacious _ _ hmem hsp, ih]
        have h1 : n - MAX_RECENT_PACKETS = 0 := by omega
        have h2 : n + 1 - MAX_RECENT_PACKETS = 0 := by omega
        rw [h1, h2, List.drop_zero, List.drop_zero, List.range_succ]
      · have hfu : ¬ (runObserve (List.range n) []).length < MAX_RECENT_PACKETS := by
          rw [hlen]; omega
        rw [hstep, observeHash_fresh_full _ _ hmem hfu, ih]
        show ((List.range n).drop (n - MAX_RECENT_PACKETS)).tail ++ [n] =
          (List.range (n + 1)).drop (n + 1 - MAX_RECENT_PACKETS)
        rw [List.tail_drop]
        rw [List.range_succ]
        rw [@List.drop_append_of_le_length _ (List.range n) [n]
          (n + 1 - MAX_RECENT_PACKETS) (by rw [List.length_range]; omega)]
        have hix : n - MAX_RECENT_PACKETS + 1 = n + 1 - MAX_RECENT_PACKETS := by
          omega
        rw [hix]

/-- Counterexample to **C6** as stated (capacity 1024): after observing the
1001 distinct digests `0, …, 1000` — fewer than 1024 — the ring retains only
1000 of them, digest `0` has already been evicted, and re-observing `0`
reports Fresh rather than Duplicate. -/
theorem dedup_capacity_counterexample :
    (runObserve (List.range 1001) []).length = 1000 ∧
    0 ∉ runObserve (List.range 1001) [] ∧
    (observeHash (runObserve (List.range 1001) []) 0).1 = false ∧
    1001 ≤ 1024 := by
  have hM : MAX_RECENT_PACKETS = 1000 := rfl
  have hr := runObserve_range 1001
  have hsub : (1001 : Nat) - MAX_RECENT_PACKETS = 1 := by omega
  rw [hsub] at hr
  have hm : 0 ∉ runObserve (List.range 1001) [] := by
    rw [hr]
    intro hc
    rcases (List.mem_drop_iff_getElem).mp hc with ⟨i, hi, hget⟩
    rw [List.getElem_range] at hget
    omega
  have hl : (runObserve (List.range 1001) []).length = 1000 := by
    rw [hr, List.length_drop, List.length_range]
  refine ⟨hl, hm, ?_, by norm_num⟩
  simp only [observeHash, if_neg hm]
  split <;> rfl

/-- **C6 (amended).** The dedup ring retains at most
`MAX_RECENT_PACKETS = 1000` most-recently observed content digests; once full
a fresh digest evicts exactly the oldest retained digest (FIFO); `observe`
reports Duplicate iff the digest is among the retained ones; a Fresh result
means the digest was absent and is present afterwards; and feeding the same
compressed bytes twice in succession yields exactly one Fresh when the digest
was not already retained. -/
theorem dedup_ring_spec :
    MAX_RECENT_PACKETS = 1000 ∧
    (∀ ring h, ring.length ≤ MAX_RECENT_PACKETS →
      (observeHash ring h).2.length ≤ MAX_RECENT_PACKETS) ∧
    (∀ ring h, h ∉ ring → ring.length = MAX_RECENT_PACKETS →
      (observeHash ring h).2 = ring.tail ++ [h]) ∧
    (∀ ring h, (observeHash ring h).1 = true ↔ h ∈ ring) ∧
    (∀ ring h, (observeHash ring h).1 = false →
      h ∉ ring ∧ h ∈ (observeHash ring h).2) ∧
    (∀ md5 ring data, md5 data ∉ ring →
      (is_duplicate md5 ring data).1 = false) ∧
    (∀ md5 ring data,
      (is_duplicate md5 (is_duplicate md5 ring data).2 data).1 = true) := by
  have hM : MAX_RECENT_PACKETS = 1000 := rfl
  refine ⟨rfl, ?_, ?_, ?_, ?_, ?_, ?_⟩
  · intro ring h hlen
    by_cases hm : h ∈ ring
    · simpa [observeHash, hm] using hlen
    · by_cases hl : ring.length < MAX_RECENT_PACKETS
      · simp only [observeHash, if_neg hm, if_pos hl]
        simp only [List.length_append, List.length_cons, List.length_nil]
        omega
      · simp only [observeHash, if_neg hm, if_neg hl]
        simp only [List.length_append, List.length_tail, List.length_cons,
          List.length_nil]
        omega
  · intro ring h hm hl
    rw [observeHash_fresh_full ring h hm (by omega)]
  · intro ring h
    constructor
    · intro hd
      by_contra hm
      by_cases hl : ring.length < MAX_RECENT_PACKETS <;>
        simp [observeHash, hm, hl] at hd
    · intro hm; simp [observeHash, hm]
  · intro ring h hd
    have hm : h ∉ ring := by
      intro hc; simp [observeHash, hc] at hd
    refine ⟨hm, ?_⟩
    by_cases hl : ring.length < MAX_RECENT_PACKETS <;>
      simp [observeHash, hm, hl]
  · intro md5 ring data hm
    simp only [is_duplicate, observeHash, if_neg hm]
    split <;> rfl
  · intro md5 ring data
    have hmem : md5 data ∈ (is_duplicate md5 ring data).2 := by
      by_cases hm : md5 data ∈ ring
      · simp [is_duplicate, observeHash, hm]
      · by_cases hl : ring.length < MAX_RECENT_PACKETS <;>
          simp [is_duplicate, observeHash, hm, hl]
    show (observeHash (is_duplicate md5 ring data).2 (md5 data)).1 = true
    rw [observeHash, if_pos hmem]

/-- Witness for `dedup_ring_spec`: applying its FIFO-eviction conjunct to a
concrete full ring of 1000 digests. -/
theorem dedup_ring_spec_witness :
    (observeHash (List.range 1000) 1000).2 = (List.range 1000).tail ++ [1000] :=
  dedup_ring_spec.2.2.1 (List.range 1000) 1000
    (by intro h; exact absurd (List.mem_range.mp h) (by omega))
    (by rw [List.length_range]; rfl)

end NucleusDedup

namespace NucleusATAK

open NucleusDedup

/-- ATAK (app-egress) multicast addresses, `atak_handler.py` line 98. -/
def ATAK_OUT_ADDRS : List String := ["224.10.10.1", "239.2.3.1", "239.5.5.55"]

/-- ATAK (app-egress) multicast ports, `atak_handler.py` line 99. -/
def ATAK_OUT_PORTS : List Nat := [17012, 6969, 7171]

/-- LoRa-out (app-ingress) multicast addresses, `atak_handler.py` line 102. -/
def LORA_OUT_ADDRS : List String := ["224.10.10.1", "239.2.3.1"]

/-- LoRa-out (app-ingress) multicast ports, `atak_handler.py` line 103. -/
def LORA_OUT_PORTS : List Nat := [17013, 6971]

/-- The shared-spool side of the ATAK handler's state: the dedup ring of
digests plus the four shared directories as association lists of
(filename, bytes).  `sent_buffer` belongs to the reticulum process; the ATAK
handler itself only creates `pending`, `incoming` and `processing`
(`atak_handler.py` lines 314-324). -/
structure HandlerState where
  ring : List Nat
  pending : List (String × List Nat)
  incoming : List (String × List Nat)
  processing : List (String × List Nat)
  sent_buffer : List (String × List Nat)
deriving DecidableEq, Repr

/-- `ATAKHandler.cleanup_shared_directories` (`atak_handler.py` lines
420-439): remove every file from `pending`, `incoming` and `processing`.
The `sent_buffer` directory is not touched. -/
def cleanup_shared_directories (st : HandlerState) : HandlerState :=
  { st with pending := [], incoming := [], processing := [] }

/-- Final spool filename `packet_<timestamp>.zst`
(`atak_handler.py` lines 493-494). -/
def packet_filename (ts : Nat) : String :=
  "packet_" ++ toString ts ++ ".zst"

/-- `ATAKHandler.process_packet` (`atak_handler.py` lines 478-506).
`compressed?` is the result of `compress_cot_packet` (`none` when
compression fails or exceeds the size bound), `md5` the digest function,
`nonWifiNodes` the result of `get_non_wifi_nodes`, `ts` the millisecond
timestamp.  Compression failure returns unchanged; a duplicate returns with
the ring untouched; otherwise the packet is staged into `pending` when some
node is in LORA mode, and the shared directories are cleaned when none is. -/
def process_packet (md5 : List Nat → Nat) (compressed? : Option (List Nat))
    (nonWifiNodes : List String) (ts : Nat) (st : HandlerState) : HandlerState :=
  match compressed? with
  | none => st
  | some compressed =>
      let dup := is_duplicate md5 st.ring compressed
      if dup.1 then { st with ring := dup.2 }
      else if nonWifiNodes.isEmpty then
        cleanup_shared_directories { st with ring := dup.2 }
      else
        { st with ring := dup.2,
                  pending := st.pending ++ [(packet_filename ts, compressed)] }

/-- A file-system operation performed while staging a packet. -/
inductive FsOp where
  | create (path : String) (data : List Nat)
  | rename (src : String) (dst : String)
deriving DecidableEq, Repr

/-- The `pending` directory path (`atak_handler.py` line 315). -/
def pending_dir : String :=
  "/home/natak/reticulum_mesh/tak_transmission/shared/pending"

/-- The file-system operations `process_packet` performs to stage a
compressed packet (`atak_handler.py` lines 493-498): a single
`open(path, 'wb')`/`write` directly under the final name in `pending/`.
No temporary file and no rename are involved. -/
def stage_ops (ts : Nat) (compressed : List Nat) : List FsOp :=
  [FsOp.create (pending_dir ++ "/" ++ packet_filename ts) compressed]

/-- The staging discipline claimed by the specification: write the bytes to
a temporary sibling, then rename it onto the final name. -/
def stagedViaTempRename (ops : List FsOp) (finalPath : String)
    (data : List Nat) : Prop :=
  ∃ tmp, tmp ≠ finalPath ∧
    ops = [FsOp.create tmp data, FsOp.rename tmp finalPath]

/-- One multicast injection onto the local bus. -/
structure BusSend where
  addr : String
  port : Nat
  payload : List Nat
deriving DecidableEq, Repr

/-- `ATAKHandler.forward_to_lora_out` (`atak_handler.py` lines 508-515):
attempt a send on every (addr, port) pair of the LoRa-out lists; `sendOk`
is the outcome of `LoraOutSocketManager.send_packet` for each pair. -/
def forward_to_lora_out (sendOk : String × Nat → Bool) (data : List Nat) :
    List BusSend :=
  ((LORA_OUT_ADDRS.zip LORA_OUT_PORTS).filter sendOk).map
    (fun ap => { addr := ap.1, port := ap.2, payload := data })

/-- `ATAKHandler.process_incoming` (`atak_handler.py` lines 517-545) over
the files of the `incoming` directory: skip non-`.zst` names; drop (and
delete) duplicates; decompress and forward fresh packets, deleting the file;
keep the file when decompression fails.  Returns the bus injections, the new
dedup ring and the files remaining in `incoming`. -/
def process_incoming (md5 : List Nat → Nat)
    (decompress : List Nat → Option (List Nat)) (sendOk : String × Nat → Bool) :
    List (String × List Nat) → List Nat →
      List BusSend × List Nat × List (String × List Nat)
  | [], ring => ([], ring, [])
  | f :: rest, ring =>
      if ¬ f.1.endsWith ".zst" then
        let r := process_incoming md5 decompress sendOk rest ring
        (r.1, r.2.1, f :: r.2.2)
      else
        let dup := is_duplicate md5 ring f.2
        if dup.1 then
          process_incoming md5 decompress sendOk rest ring
        else
          match decompress f.2 with
          | some plain =>
              let r := process_incoming md5 decompress sendOk rest dup.2
              (forward_to_lora_out sendOk plain ++ r.1, r.2.1, r.2.2)
          | none =>
              let r := process_incoming md5 decompress sendOk rest dup.2
              (r.1, r.2.1, f :: r.2.2)

theorem forward_ports (sendOk : String × Nat → Bool) (data : List Nat)
    (ev : BusSend) (hev : ev ∈ forward_to_lora_out sendOk data) :
    ev.port ∈ LORA_OUT_PORTS := by
  rcases List.mem_map.mp hev with ⟨ap, hap, rfl⟩
  have hzip := List.of_mem_filter hap
  have := List.of_mem_zip (List.mem_of_mem_filter hap)
  exact this.2

/-- **C8.** Overlay-arrived packets are re-injected only on the app-ingress
ports 17013 and 6971 (`LORA_OUT_PORTS`), and these are disjoint from the
app-egress ports 17012, 6969 and 7171 (`ATAK_OUT_PORTS`), so a packet
received on an app-egress port is never written to an app-egress port. -/
theorem ingress_ports_spec :
    LORA_OUT_PORTS = [17013, 6971] ∧
    ATAK_OUT_PORTS = [17012, 6969, 7171] ∧
    (∀ sendOk data ev, ev ∈ forward_to_lora_out sendOk data →
      ev.port ∈ LORA_OUT_PORTS) ∧
    (∀ md5 decompress sendOk files ring ev,
      ev ∈ (process_incoming md5 decompress sendOk files ring).1 →
      ev.port ∈ LORA_OUT_PORTS) ∧
    (∀ p ∈ LORA_OUT_PORTS, p ∉ ATAK_OUT_PORTS) := by
  refine ⟨rfl, rfl, forward_ports, ?_, by decide⟩
  intro md5 decompress sendOk files
  induction files with
  | nil => intro ring ev hev; simp [process_incoming] at hev
  | cons f rest ih =>
      intro ring ev hev
      by_cases hz : f.1.endsWith ".zst"
      · simp only [process_incoming, hz, not_true_eq_false, if_false] at hev
        by_cases hd : (NucleusDedup.is_duplicate md5 ring f.2).1 = true
        · rw [if_pos hd] at hev
          exact ih ring ev hev
        · rw [if_neg hd] at hev
          cases hdec : decompress f.2 with
          | some plain =>
              rw [hdec] at hev
              simp only [List.mem_append] at hev
              rcases hev with hev | hev
              · exact forward_ports sendOk plain ev hev
              · exact ih _ ev hev
          | none =>
              rw [hdec] at hev
              exact ih _ ev hev
      · simp only [process_incoming, hz, not_false_eq_true, if_true] at hev
        exact ih ring ev hev

/-- Witness for `ingress_ports_spec`: its port-membership conjunct applied
to a concrete forwarded packet. -/
theorem ingress_ports_spec_witness :
    ({ addr := "224.10.10.1", port := 17013, payload := [1] } : BusSend).port ∈
      LORA_OUT_PORTS :=
  ingress_ports_spec.2.2.1 (fun _ => true) [1]
    { addr := "224.10.10.1", port := 17013, payload := [1] } (by decide)

/-- Counterexample to **C9**: staging does not write a temporary sibling
and rename it; the single operation performed on the concrete packet
(timestamp 1, bytes `[0]`) creates the final name
`pending/packet_1.zst` directly. -/
theorem stage_not_temp_rename_counterexample :
    ¬ stagedViaTempRename (stage_ops 1 [0])
        (pending_dir ++ "/" ++ packet_filename 1) [0] ∧
    stage_ops 1 [0] =
      [FsOp.create (pending_dir ++ "/" ++ packet_filename 1) [0]] := by
  constructor
  · rintro ⟨tmp, -, habs⟩
    simp [stage_ops] at habs
  · rfl

/-- **C9 (amended).** For every compressed packet staged into the spool,
`process_packet` writes the bytes in a single create/write directly under
the final name `pending/packet_<packet_id>.zst`; no temporary sibling file
and no rename are used, so the staging write is not atomic with respect to
the final name. -/
theorem stage_ops_spec (ts : Nat) (data : List Nat) :
    stage_ops ts data =
      [FsOp.create (pending_dir ++ "/packet_" ++ toString ts ++ ".zst") data] ∧
    (∀ a b, FsOp.rename a b ∉ stage_ops ts data) ∧
    (stage_ops ts data).length = 1 := by
  refine ⟨?_, ?_, rfl⟩
  · have hlit : "/" ++ "packet_" = "/packet_" := rfl
    simp only [stage_ops, packet_filename, String.append_assoc]
    rw [← String.append_assoc "/" "packet_", hlit]
  · intro a b hmem
    simp [stage_ops] at hmem

/-- Witness for `stage_ops_spec`: no rename is emitted when staging the
concrete packet with timestamp 3 and bytes `[9]`. -/
theorem stage_ops_spec_witness :
    FsOp.rename "a" "b" ∉ stage_ops 3 [9] :=
  (stage_ops_spec 3 [9]).2.1 "a" "b"

/-- Counterexample to **C5** as stated: all remotes in WIFI mode, one fresh
compressible egress packet processed; the `pending`, `incoming` and
`processing` directories are purged but the `sent_buffer` file survives, so
the three directories of the claim are not all empty after the cycle. -/
theorem purge_skips_sent_buffer_counterexample :
    (process_packet (fun l => l.headD 0) (some [7]) [] 2
        { ring := [], pending := [("packet_1.zst", [1])], incoming := [],
          processing := [], sent_buffer := [("packet_0.zst", [0])] }).sent_buffer
      = [("packet_0.zst", [0])] ∧
    (process_packet (fun l => l.headD 0) (some [7]) [] 2
        { ring := [], pending := [("packet_1.zst", [1])], incoming := [],
          processing := [], sent_buffer := [("packet_0.zst", [0])] }).pending
      = [] := by
  constructor <;> rfl

/-- **C10.** On the egress path the duplicate check tests and inserts in one
step and runs before the OVERLAY-peer check: a fresh compressible packet
processed with no OVERLAY peer is still recorded in the dedup ring (and not
spooled); a packet whose digest is already in the ring leaves the state
completely unchanged — in particular it is never spooled even if OVERLAY
peers have appeared — so processing the same bytes twice, first with no
peers, creates no spool file at all. -/
theorem egress_dedup_before_peer_check :
    (∀ (md5 : List Nat → Nat) st c ts, md5 c ∉ st.ring →
      md5 c ∈ (process_packet md5 (some c) [] ts st).ring ∧
      (process_packet md5 (some c) [] ts st).pending = []) ∧
    (∀ (md5 : List Nat → Nat) st c ns ts, md5 c ∈ st.ring →
      process_packet md5 (some c) ns ts st = st) ∧
    (∀ (md5 : List Nat → Nat) st c ns ts ts', md5 c ∉ st.ring →
      process_packet md5 (some c) ns ts'
          (process_packet md5 (some c) [] ts st) =
        process_packet md5 (some c) [] ts st) := by
  have hmem : ∀ (md5 : List Nat → Nat) ring c, md5 c ∉ ring →
      md5 c ∈ (NucleusDedup.is_duplicate md5 ring c).2 := by
    intro md5 ring c hm
    by_cases hl : ring.length < NucleusDedup.MAX_RECENT_PACKETS <;>
      simp [NucleusDedup.is_duplicate, NucleusDedup.observeHash, hm, hl]
  have hdup_id : ∀ (md5 : List Nat → Nat) st c ns ts, md5 c ∈ st.ring →
      process_packet md5 (some c) ns ts st = st := by
    intro md5 st c ns ts hm
    simp [process_packet, NucleusDedup.is_duplicate, NucleusDedup.observeHash, hm]
  have hfresh : ∀ (md5 : List Nat → Nat) st c ts, md5 c ∉ st.ring →
      md5 c ∈ (process_packet md5 (some c) [] ts st).ring ∧
      (process_packet md5 (some c) [] ts st).pending = [] := by
    intro md5 st c ts hm
    have hd1 : (NucleusDedup.is_duplicate md5 st.ring c).1 = false := by
      simp [NucleusDedup.is_duplicate, NucleusDedup.observeHash, hm]
      split <;> rfl
    simp only [process_packet, hd1, Bool.false_eq_true, if_false,
      List.isEmpty_nil, if_true, cleanup_shared_directories]
    exact ⟨hmem md5 st.ring c hm, by trivial⟩
  refine ⟨hfresh, hdup_id, ?_⟩
  intro md5 st c ns ts ts' hm
  exact hdup_id md5 _ c ns ts' (hfresh md5 st c ts hm).1

/-- Witness for `egress_dedup_before_peer_check`: its fresh-packet conjunct
at a concrete state and packet. -/
theorem egress_dedup_before_peer_check_witness :
    (5 : Nat) ∉ ([] : List Nat) ∧
    5 ∈ (process_packet (fun l => l.headD 0) (some [5]) [] 9
        { ring := [], pending := [], incoming := [], processing := [],
          sent_buffer := [] }).ring :=
  ⟨by decide,
    (egress_dedup_before_peer_check.1 (fun l => l.headD 0)
      { ring := [], pending := [], incoming := [], processing := [],
        sent_buffer := [] } [5] 9 (by decide)).1⟩

end NucleusATAK

namespace NucleusPM

/-- `RETRY_MAX_ATTEMPTS = 5` (`new_implementation/config.py` line 38). -/
def RETRY_MAX_ATTEMPTS : Nat := 5

/-- Modelled from the spec: `config.SEND_SPACING_DELAY` is read by
`packet_manager.py` (lines 63 and 414) but the constant itself is missing
from `new_implementation/config.py`; the specification fixes the per-process
send spacing `SEND_SPACING` at 5 seconds. -/
def SEND_SPACING_DELAY : ℚ := 5

/-- Per-node tracking record of the delivery ledger
(`packet_manager.py` lines 253-259). -/
structure NodeTrack where
  sent : Bool
  sent_time : ℚ
  delivered : Bool
deriving DecidableEq, Repr

/-- Fresh per-node state (`packet_manager.py` lines 254-258, 290-294). -/
def freshTrack : NodeTrack :=
  { sent := false, sent_time := 0, delivered := false }

/-- One `delivery_status` entry (`packet_manager.py` lines 252-261). -/
structure DeliveryEntry where
  nodes : List (String × NodeTrack)
  retry_count : Nat
deriving DecidableEq, Repr

/-- The PacketManager state visible to the embedding: the delivery ledger,
the `pending` and `sent_buffer` directories and the pacing clock
(`packet_manager.py` lines 29-39). -/
structure PMState where
  delivery_status : List (String × DeliveryEntry)
  pending : List (String × List Nat)
  sent_buffer : List (String × List Nat)
  last_send_time : ℚ
deriving DecidableEq, Repr

/-- Initial state: empty ledger and `last_send_time = 0`
(`packet_manager.py` lines 38-39). -/
def initPMState : PMState :=
  { delivery_status := [], pending := [], sent_buffer := [], last_send_time := 0 }

/-- Point update of an association list. -/
def alist_update (m : List (String × α)) (k : String) (v : α) :
    List (String × α) :=
  m.map (fun p => if p.1 = k then (k, v) else p)

/-- Pointwise modification of an association list. -/
def alist_modify (m : List (String × α)) (k : String) (f : α → α) :
    List (String × α) :=
  m.map (fun p => if p.1 = k then (k, f p.2) else p)

/-- `PacketManager.send_to_node` (`packet_manager.py` lines 410-504) reduced
to its state effect.  `identityOk` covers the external
`peer_discovery.get_peer_identity` lookup and `RNS.Destination` creation
(lines 417-438); `receiptOk` covers `RNS.Packet(...).send()` returning a
receipt (lines 444-451).  The pacing guard is lines 412-415; only a send
that obtains a receipt updates `last_send_time` (line 500). -/
def send_to_node (now : ℚ) (identityOk receiptOk : Bool) (st : PMState) :
    Bool × PMState :=
  if now - st.last_send_time < SEND_SPACING_DELAY then (false, st)
  else if ¬ identityOk then (false, st)
  else if ¬ receiptOk then (false, st)
  else (true, { st with last_send_time := now })

/-- The per-target send loop of `process_outgoing` (`packet_manager.py`
lines 264-277 and 296-319): walk the valid nodes in order, attempt
`send_to_node` on the first not-yet-sent one; a failed attempt leaves the
state unchanged and the loop moves to the next node; a successful attempt
stops the loop. -/
def try_nodes (valid : List String) (entry : DeliveryEntry)
    (identityOk receiptOk : String → Bool) (now : ℚ) (st : PMState) :
    Option (String × PMState) :=
  match valid with
  | [] => none
  | n :: rest =>
      let unsent : Bool := match entry.nodes.lookup n with
        | some tr => ! tr.sent
        | none => false
      if unsent then
        let r := send_to_node now (identityOk n) (receiptOk n) st
        if r.1 then some (n, r.2)
        else try_nodes rest entry identityOk receiptOk now st
      else try_nodes rest entry identityOk receiptOk now st

/-- `os.rename(pending_path, sent_path)` guarded by existence
(`packet_manager.py` lines 313-314 and 327-328). -/
def move_to_sent_buffer (filename : String) (st : PMState) : PMState :=
  match st.pending.lookup filename with
  | some data =>
      { st with pending := st.pending.filter (fun p => p.1 ≠ filename),
                sent_buffer := st.sent_buffer ++ [(filename, data)] }
  | none => st

/-- `PacketManager.process_outgoing` (`packet_manager.py` lines 208-335).
`lora_nodes` is the external `get_lora_nodes()` result, `identityOk` the
per-node identity check used to build `valid_nodes`, `receiptOk` the
per-node send outcome, `now` the cycle's clock.  Returns whether something
was sent together with the new state. -/
def process_outgoing (transmit_allowed : Bool) (lora_nodes : List String)
    (identityOk receiptOk : String → Bool) (now : ℚ) (st : PMState) :
    Bool × PMState :=
  if ¬ transmit_allowed then (false, st)
  else if lora_nodes.isEmpty then (false, st)
  else
    let pending_files := (st.pending.map Prod.fst).filter
      (fun f => f.endsWith ".zst")
    if pending_files.isEmpty then (false, st)
    else
      let valid_nodes := lora_nodes.filter identityOk
      if valid_nodes.isEmpty then (false, st)
      else
        let filename :=
          (pending_files.mergeSort (fun a b => decide (a ≤ b))).headD ""
        match st.delivery_status.lookup filename with
        | none =>
            let entry : DeliveryEntry :=
              { nodes := valid_nodes.map (fun n => (n, freshTrack)),
                retry_count := 0 }
            let st1 := { st with
              delivery_status := st.delivery_status ++ [(filename, entry)] }
            match try_nodes valid_nodes entry identityOk receiptOk now st1 with
            | some r =>
                let entry' := { entry with
                  nodes := alist_modify entry.nodes r.1
                    (fun tr => { tr with sent := true, sent_time := now }) }
                (true, { r.2 with
                  delivery_status := alist_update r.2.delivery_status
                    filename entry' })
            | none => (false, st1)
        | some entry =>
            let entry0 := { entry with
              nodes := entry.nodes ++
                (valid_nodes.filter
                  (fun n => (entry.nodes.lookup n).isNone)).map
                  (fun n => (n, freshTrack)) }
            let st1 := { st with
              delivery_status := alist_update st.delivery_status
                filename entry0 }
            match try_nodes valid_nodes entry0 identityOk receiptOk now st1 with
            | some r =>
                let entry' := { entry0 with
                  nodes := alist_modify entry0.nodes r.1
                    (fun tr => { tr with sent := true, sent_time := now }) }
                let st2 := { r.2 with
                  delivery_status := alist_update r.2.delivery_status
                    filename entry' }
                let all_sent := entry'.nodes.all (fun p => p.2.sent)
                (true, if all_sent then move_to_sent_buffer filename st2 else st2)
            | none =>
                let all_sent := entry0.nodes.all (fun p => p.2.sent)
                (false,
                  if all_sent then move_to_sent_buffer filename st1 else st1)

/-- The `on_delivery` receipt callback (`packet_manager.py` lines 455-482):
when the receipt reports DELIVERED, mark the node delivered; when every
tracked node is delivered, remove the buffer file and drop the ledger entry
(the entry is dropped even when the file was already gone). -/
def pm_on_delivery (filename hostname : String) (statusDelivered : Bool)
    (st : PMState) : PMState :=
  if ¬ statusDelivered then st
  else match st.delivery_status.lookup filename with
  | none => st
  | some entry =>
      let entry' := { entry with
        nodes := alist_modify entry.nodes hostname
          (fun tr => { tr with delivered := true }) }
      if entry'.nodes.all (fun p => p.2.delivered) then
        { st with
          sent_buffer := st.sent_buffer.filter (fun p => p.1 ≠ filename),
          delivery_status := st.delivery_status.filter
            (fun p => p.1 ≠ filename) }
      else
        { st with delivery_status :=
            alist_update st.delivery_status filename entry' }

/-- The `on_timeout` receipt callback (`packet_manager.py` lines 484-494):
if the file is still tracked, remove it from the sent buffer and drop the
whole ledger entry; when `os.remove` fails (file already gone) the deletion
of the tracking entry is skipped, because both statements share one `try`.
The hostname is only logged. -/
def pm_on_timeout (filename _hostname : String) (st : PMState) : PMState :=
  match st.delivery_status.lookup filename with
  | none => st
  | some _ =>
      if st.sent_buffer.any (fun p => p.1 = filename) then
        { st with
          sent_buffer := st.sent_buffer.filter (fun p => p.1 ≠ filename),
          delivery_status := st.delivery_status.filter
            (fun p => p.1 ≠ filename) }
      else st

/-- One call to `send_to_node` in a trace: the clock value and the two
external outcomes. -/
structure SendCall where
  now : ℚ
  identityOk : Bool
  receiptOk : Bool
deriving DecidableEq, Repr

/-- Run a sequence of `send_to_node` calls, collecting the initiation times
of the successful transmissions. -/
def run_send_calls : List SendCall → PMState → List ℚ × PMState
  | [], st => ([], st)
  | c :: rest, st =>
      let r := send_to_node c.now c.identityOk c.receiptOk st
      let rr := run_send_calls rest r.2
      (if r.1 then c.now :: rr.1 else rr.1, rr.2)

theorem send_to_node_success (now : ℚ) (idk rok : Bool) (st : PMState)
    (h : (send_to_node now idk rok st).1 = true) :
    st.last_send_time + SEND_SPACING_DELAY ≤ now ∧
    (send_to_node now idk rok st).2.last_send_time = now := by
  by_cases h1 : now - st.last_send_time < SEND_SPACING_DELAY
  · simp [send_to_node, h1] at h
  · have h2 : st.last_send_time + SEND_SPACING_DELAY ≤ now := by
      have := not_lt.mp h1; linarith
    refine ⟨h2, ?_⟩
    simp only [send_to_node, if_neg h1] at h ⊢
    cases idk <;> cases rok <;> simp_all

theorem send_to_node_fail (now : ℚ) (idk rok : Bool) (st : PMState)
    (h : (send_to_node now idk rok st).1 = false) :
    (send_to_node now idk rok st).2 = st := by
  by_cases h1 : now - st.last_send_time < SEND_SPACING_DELAY
  · simp [send_to_node, h1]
  · simp only [send_to_node, if_neg h1] at h ⊢
    cases idk <;> cases rok <;> simp_all

/-- Every success time in a trace is at least one spacing after the starting
clock, and consecutive successes are spaced accordingly. -/
theorem run_send_calls_spaced (calls : List SendCall) (st : PMState) :
    (∀ t ∈ (run_send_calls calls st).1,
      st.last_send_time + SEND_SPACING_DELAY ≤ t) ∧
    List.Pairwise (fun a b => a + SEND_SPACING_DELAY ≤ b)
      (run_send_calls calls st).1 := by
  induction calls generalizing st with
  | nil => exact ⟨by intro t ht; simp [run_send_calls] at ht, by
      simp [run_send_calls]⟩
  | cons c rest ih =>
      by_cases hs : (send_to_node c.now c.identityOk c.receiptOk st).1 = true
      · have hsucc := send_to_node_success c.now c.identityOk c.receiptOk st hs
        have ihh := ih (send_to_node c.now c.identityOk c.receiptOk st).2
        rw [hsucc.2] at ihh
        have hcons : (run_send_calls (c :: rest) st).1 =
            c.now :: (run_send_calls rest
              (send_to_node c.now c.identityOk c.receiptOk st).2).1 := by
          simp [run_send_calls, hs]
        rw [hcons]
        constructor
        · intro t ht
          rcases List.mem_cons.mp ht with rfl | ht
          · exact hsucc.1
          · have := ihh.1 t ht
            have hJ : (0 : ℚ) < SEND_SPACING_DELAY := by norm_num [SEND_SPACING_DELAY]
            linarith [hsucc.1]
        · refine List.pairwise_cons.mpr ⟨?_, ihh.2⟩
          intro b hb
          exact ihh.1 b hb
      · have hfail := send_to_node_fail c.now c.identityOk c.receiptOk st
          (Bool.not_eq_true _ ▸ (by simpa using hs))
        have hcons : (run_send_calls (c :: rest) st).1 =
            (run_send_calls rest
              (send_to_node c.now c.identityOk c.receiptOk st).2).1 := by
          simp [run_send_calls, hs]
        rw [hcons, hfail]
        exact ih st

/-- **C4.** The pacing clock guarantees: a candidate transmission arriving
less than `SEND_SPACING_DELAY = 5` seconds after the last successful send is
refused with the state unchanged (deferred to a later cycle), and in every
trace of `send_to_node` calls from the initial state any two successful
transmissions are initiated at least 5 seconds apart. -/
theorem send_pacing_spec :
    SEND_SPACING_DELAY = 5 ∧
    (∀ now idk rok st, now - st.last_send_time < SEND_SPACING_DELAY →
      send_to_node now idk rok st = (false, st)) ∧
    (∀ calls, List.Pairwise (fun a b => a + SEND_SPACING_DELAY ≤ b)
      (run_send_calls calls initPMState).1) := by
  refine ⟨rfl, ?_, ?_⟩
  · intro now idk rok st h
    simp [send_to_node, h]
  · intro calls
    exact (run_send_calls_spaced calls initPMState).2

/-- Witness for `send_pacing_spec`: a call 3 seconds after start is refused,
and a concrete trace is 5-second spaced. -/
theorem send_pacing_spec_witness :
    send_to_node 3 true true initPMState = (false, initPMState) ∧
    List.Pairwise (fun a b => a + SEND_SPACING_DELAY ≤ b)
      (run_send_calls
        [⟨6, true, true⟩, ⟨8, true, true⟩, ⟨11, true, true⟩] initPMState).1 :=
  ⟨send_pacing_spec.2.1 3 true true initPMState (by norm_num [initPMState, SEND_SPACING_DELAY]),
   send_pacing_spec.2.2 [⟨6, true, true⟩, ⟨8, true, true⟩, ⟨11, true, true⟩]⟩

/-- Counterexample to **C2** as stated for
`new_implementation/packet_manager.py`: a packet tracked for two targets,
both sent and neither delivered; a single proof timeout for the first target
removes the buffer file and drops the whole ledger entry although the second
target is still awaiting proof with `attempts` (retry_count) `= 0 < 5`. -/
theorem buffer_removed_early_counterexample :
    (let entry : DeliveryEntry :=
      { nodes := [("nodeA", { sent := true, sent_time := 0, delivered := false }),
                  ("nodeB", { sent := true, sent_time := 0, delivered := false })],
        retry_count := 0 }
     let st : PMState :=
      { delivery_status := [("packet_7.zst", entry)], pending := [],
        sent_buffer := [("packet_7.zst", [1])], last_send_time := 0 }
     (st.delivery_status.lookup "packet_7.zst").isSome = true ∧
     (∃ tr, entry.nodes.lookup "nodeB" = some tr ∧ tr.delivered = false ∧
        tr.sent = true) ∧
     entry.retry_count < RETRY_MAX_ATTEMPTS ∧
     (pm_on_timeout "packet_7.zst" "nodeA" st).sent_buffer = [] ∧
     (pm_on_timeout "packet_7.zst" "nodeA" st).delivery_status = []) := by
  refine ⟨rfl, ⟨_, rfl, rfl, rfl⟩, by norm_num [RETRY_MAX_ATTEMPTS], ?_, ?_⟩ <;> rfl

/-- **C5 (amended).** When no remote is in LORA mode: processing a fresh
compressible egress packet stages nothing and purges the `pending`,
`incoming` and `processing` directories, leaving `sent_buffer` untouched
(which is why the original claim fails on `sent_buffer`); and the sender's
`process_outgoing` with an empty LORA-node set attempts no overlay send and
leaves its state unchanged. -/
theorem no_overlay_purge_spec :
    (∀ (md5 : List Nat → Nat) st c ts, md5 c ∉ st.ring →
      (NucleusATAK.process_packet md5 (some c) [] ts st).pending = [] ∧
      (NucleusATAK.process_packet md5 (some c) [] ts st).incoming = [] ∧
      (NucleusATAK.process_packet md5 (some c) [] ts st).processing = [] ∧
      (NucleusATAK.process_packet md5 (some c) [] ts st).sent_buffer =
        st.sent_buffer) ∧
    (∀ ta idk rok now st,
      process_outgoing ta [] idk rok now st = (false, st)) := by
  constructor
  · intro md5 st c ts hm
    have hd1 : (NucleusDedup.is_duplicate md5 st.ring c).1 = false := by
      simp [NucleusDedup.is_duplicate, NucleusDedup.observeHash, hm]
      split <;> rfl
    simp [NucleusATAK.process_packet, hd1,
      NucleusATAK.cleanup_shared_directories]
  · intro ta idk rok now st
    cases ta <;> simp [process_outgoing]

/-- Witness for `no_overlay_purge_spec`: the purge conjunct applied at a
concrete state holding one pending and one sent-buffer file. -/
theorem no_overlay_purge_spec_witness :
    (NucleusATAK.process_packet (fun l => l.headD 0) (some [3]) [] 4
      { ring := [], pending := [("packet_2.zst", [2])], incoming := [],
        processing := [], sent_buffer := [("packet_0.zst", [0])] }).pending
      = [] :=
  (no_overlay_purge_spec.1 (fun l => l.headD 0)
    { ring := [], pending := [("packet_2.zst", [2])], incoming := [],
      processing := [], sent_buffer := [("packet_0.zst", [0])] } [3] 4
    (by decide)).1

end NucleusPM

namespace NucleusRH

/-- `self.RETRY_INITIAL_DELAY = 60` seconds (`reticulum_handler.py` line 39;
the `new_implementation/config.py` line 34 variant uses 10). -/
def RETRY_INITIAL_DELAY : ℚ := 60

/-- `self.RETRY_BACKOFF_FACTOR = 2` (`reticulum_handler.py` line 40). -/
def RETRY_BACKOFF_FACTOR : ℚ := 2

/-- `self.RETRY_MAX_DELAY = 900` seconds (`reticulum_handler.py` line 41;
the `new_implementation/config.py` line 36 variant uses 120). -/
def RETRY_MAX_DELAY : ℚ := 900

/-- `self.RETRY_JITTER = 0.3` (`reticulum_handler.py` line 42). -/
def RETRY_JITTER : ℚ := 3 / 10

/-- `self.RETRY_MAX_ATTEMPTS = 5` (`reticulum_handler.py` line 43). -/
def RETRY_MAX_ATTEMPTS : Nat := 5

/-- The exponential-backoff base delay for the retry whose (incremented)
attempt counter is `attempts`, translated from `reticulum_handler.py`
lines 794-797:
`min(RETRY_INITIAL_DELAY * RETRY_BACKOFF_FACTOR ** (retry_attempts - 1),
RETRY_MAX_DELAY)`. -/
def backoff_delay (attempts : Nat) : ℚ :=
  min (RETRY_INITIAL_DELAY * RETRY_BACKOFF_FACTOR ^ (attempts - 1))
    RETRY_MAX_DELAY

/-- Status of a `message_retry_queue` entry. -/
inductive EntryStatus where
  | awaiting_proof
  | pending_retry
deriving DecidableEq, Repr

/-- One `message_retry_queue` entry, per (hostname, packet) pair
(`reticulum_handler.py` lines 942-951). -/
structure RetryEntry where
  retry_attempts : Nat
  next_retry_time : Option ℚ
  status : EntryStatus
deriving DecidableEq, Repr

/-- `ReticulumHandler.packet_delivery_timeout` restricted to one queue entry
(`reticulum_handler.py` lines 750-817): increment `retry_attempts`; at
`RETRY_MAX_ATTEMPTS` the entry is popped (`none`); otherwise, with the link
active, schedule the retry after `backoff_delay * jitter` seconds where the
jitter factor `j` is drawn from `[1 - RETRY_JITTER, 1 + RETRY_JITTER]`
(lines 798-800); with the link down the retry is deferred with no time. -/
def packet_delivery_timeout (linkActive : Bool) (now j : ℚ)
    (e : RetryEntry) : Option RetryEntry :=
  let a := e.retry_attempts + 1
  if a ≥ RETRY_MAX_ATTEMPTS then none
  else if linkActive then
    some { retry_attempts := a,
           next_retry_time := some (now + backoff_delay a * j),
           status := EntryStatus.pending_retry }
  else
    some { retry_attempts := a, next_retry_time := none,
           status := EntryStatus.pending_retry }

/-- Counterexample to **C3** as stated: the code's first scheduled retry
delay (jitter ignored, i.e. `j = 1`) is 60 seconds, not 12 as the claimed
schedule `12, 24, 48, 96, 120` requires (nor 24, the value of the claimed
formula `min(12·2^attempts, 120)` at `attempts = 1`); the code's constants
are 60/2/900, and only four retries are ever scheduled. -/
theorem retry_delay_counterexample :
    backoff_delay 1 = 60 ∧
    ¬ backoff_delay 1 = 12 ∧
    ¬ backoff_delay 1 = min ((12 : ℚ) * 2 ^ (1 : Nat)) 120 ∧
    ¬ RETRY_INITIAL_DELAY = 12 ∧
    packet_delivery_timeout true 0 1
        { retry_attempts := 4, next_retry_time := none,
          status := EntryStatus.awaiting_proof } = none := by
  refine ⟨?_, ?_, ?_, ?_, ?_⟩
  · norm_num [backoff_delay, RETRY_INITIAL_DELAY, RETRY_BACKOFF_FACTOR,
      RETRY_MAX_DELAY]
  · norm_num [backoff_delay, RETRY_INITIAL_DELAY, RETRY_BACKOFF_FACTOR,
      RETRY_MAX_DELAY]
  · norm_num [backoff_delay, RETRY_INITIAL_DELAY, RETRY_BACKOFF_FACTOR,
      RETRY_MAX_DELAY]
  · norm_num [RETRY_INITIAL_DELAY]
  · rfl

/-- **C3 (amended).** A proof timeout increments the per-(packet, target)
attempt counter; while the incremented counter stays below
`RETRY_MAX_ATTEMPTS = 5` and the link is active, a retry is scheduled after
`min(RETRY_INITIAL_DELAY · RETRY_BACKOFF_FACTOR^(attempts−1),
RETRY_MAX_DELAY)` seconds — constants 60 s, 2 and 900 s — scaled by a
multiplicative jitter in `[1 − 0.3, 1 + 0.3]`; only when the counter reaches
5 is the entry dropped (target failed), so with jitter ignored the
successive retry delays are 60, 120, 240 and 480 seconds (four retries, the
900 s cap never binding). -/
theorem retry_schedule_spec :
    (RETRY_INITIAL_DELAY = 60 ∧ RETRY_BACKOFF_FACTOR = 2 ∧
      RETRY_MAX_DELAY = 900 ∧ RETRY_JITTER = 3 / 10 ∧
      RETRY_MAX_ATTEMPTS = 5) ∧
    (∀ linkActive now j e,
      e.retry_attempts + 1 ≥ RETRY_MAX_ATTEMPTS →
      packet_delivery_timeout linkActive now j e = none) ∧
    (∀ now j e, e.retry_attempts + 1 < RETRY_MAX_ATTEMPTS →
      packet_delivery_timeout true now j e =
        some { retry_attempts := e.retry_attempts + 1,
               next_retry_time :=
                 some (now + backoff_delay (e.retry_attempts + 1) * j),
               status := EntryStatus.pending_retry }) ∧
    [backoff_delay 1, backoff_delay 2, backoff_delay 3, backoff_delay 4] =
      [60, 120, 240, 480] ∧
    (∀ a j, 1 - RETRY_JITTER ≤ j → j ≤ 1 + RETRY_JITTER →
      backoff_delay a * (1 - RETRY_JITTER) ≤ backoff_delay a * j ∧
      backoff_delay a * j ≤ backoff_delay a * (1 + RETRY_JITTER)) := by
  have hpos : ∀ a, 0 ≤ backoff_delay a := by
    intro a
    apply le_min
    · unfold RETRY_INITIAL_DELAY RETRY_BACKOFF_FACTOR
      positivity
    · norm_num [RETRY_MAX_DELAY]
  refine ⟨⟨rfl, rfl, rfl, rfl, rfl⟩, ?_, ?_, ?_, ?_⟩
  · intro linkActive now j e h
    simp [packet_delivery_timeout, h]
  · intro now j e h
    simp [packet_delivery_timeout, not_le.mpr h, Nat.not_le_of_lt h]
  · norm_num [backoff_delay, RETRY_INITIAL_DELAY, RETRY_BACKOFF_FACTOR,
      RETRY_MAX_DELAY]
  · intro a j h1 h2
    exact ⟨mul_le_mul_of_nonneg_left h1 (hpos a),
      mul_le_mul_of_nonneg_left h2 (hpos a)⟩

/-- Witness for `retry_schedule_spec`: the scheduling conjunct applied to a
fresh entry after its first timeout. -/
theorem retry_schedule_spec_witness :
    packet_delivery_timeout true 0 1
        { retry_attempts := 0, next_retry_time := none,
          status := EntryStatus.awaiting_proof } =
      some { retry_attempts := 1, next_retry_time := some (0 + backoff_delay 1 * 1),
             status := EntryStatus.pending_retry } :=
  retry_schedule_spec.2.2.1 0 1
    { retry_attempts := 0, next_retry_time := none,
      status := EntryStatus.awaiting_proof } (by norm_num [RETRY_MAX_ATTEMPTS])

/-- Status of one fan-out target of a packet, as tracked jointly by
`message_retry_queue` and `buffer_refs`: `awaiting`/`pendingRetry` targets
are the live queue entries, `delivered` and `failed_` targets have been
popped (terminal).  A target can become `failed_` either by exhausting its
attempts or by being dropped when its retry finds the buffer file missing
(`reticulum_handler.py` lines 1034-1055). -/
inductive TStat where
  | awaiting
  | pendingRetry
  | delivered
  | failed_
deriving DecidableEq, Repr

/-- Whether a target still holds a buffer reference: exactly the
`awaiting_proof` and `pending_retry` queue states. -/
def isNonTerminal (t : TStat) : Bool :=
  match t with
  | TStat.awaiting => true
  | TStat.pendingRetry => true
  | TStat.delivered => false
  | TStat.failed_ => false

/-- Per-target record: the `retry_attempts` counter and the status. -/
structure Target where
  attempts : Nat
  tstat : TStat
deriving DecidableEq, Repr

/-- The per-packet ledger of `reticulum_handler.py`: the targets (hostname
keyed), the `buffer_refs[packet_id]['count']` reference counter, and whether
the `sent_buffer` copy of the packet is on disk. -/
structure LedgerState where
  targets : List (String × Target)
  count : Int
  filePresent : Bool
deriving DecidableEq, Repr

/-- Before any send: no targets, zero references, no buffer file. -/
def initLedger : LedgerState :=
  { targets := [], count := 0, filePresent := false }

/-- Point update of the target list. -/
def upd_targets (ts : List (String × Target)) (h : String) (t : Target) :
    List (String × Target) :=
  ts.map (fun p => if p.1 = h then (h, t) else p)

/-- The per-packet delivery events of `reticulum_handler.py`.  `deliver` and
`timeout` are the two receipt callbacks — each outstanding receipt fires
exactly one of them, so both are guarded on the target being in the
`awaiting` state; `retrySend` is the resend of `retry_processing_loop`
(lines 1005-1096); `addTarget` is a first send to a peer in
`send_data_over_link` whose `packet.send()` returns a receipt
(lines 915-955), which (re)writes the buffer file and increments the
reference count; `sendFail` is a first send to a peer whose `packet.send()`
returns no receipt (lines 956-965), which removes the buffer file
unconditionally — without consulting the reference count — and tracks
nothing. -/
inductive LEvent where
  | deliver (h : String)
  | timeout (h : String)
  | retrySend (h : String)
  | addTarget (h : String)
  | sendFail (h : String)
deriving DecidableEq, Repr

/-- One ledger transition, translated from `packet_delivered`
(`reticulum_handler.py` lines 677-721), `packet_delivery_timeout`
(lines 723-817), `retry_processing_loop` (lines 1005-1096) and
`send_data_over_link` (lines 846-968): delivery and final timeout pop the
queue entry, decrement the reference count and delete the buffer file
exactly when the count reaches zero; a non-final timeout only increments
the attempt counter; a resend needs the buffer file, and a missing file
drops the target as terminal without exhausting its attempts
(lines 1034-1055); a first send that obtains a receipt adds a reference and
(re)writes the buffer file; a first send that obtains no receipt removes
the buffer file regardless of the reference count (lines 956-965).  Events
whose guard fails (no such receipt outstanding) return `none`. -/
def ledger_step (e : LEvent) (s : LedgerState) : Option LedgerState :=
  match e with
  | LEvent.deliver h =>
      match s.targets.lookup h with
      | some t =>
          if t.tstat = TStat.awaiting then
            let c := s.count - 1
            some { targets := upd_targets s.targets h
                     { t with tstat := TStat.delivered },
                   count := c,
                   filePresent := if c ≤ 0 then false else s.filePresent }
          else none
      | none => none
  | LEvent.timeout h =>
      match s.targets.lookup h with
      | some t =>
          if t.tstat = TStat.awaiting then
            let a := t.attempts + 1
            if a ≥ RETRY_MAX_ATTEMPTS then
              let c := s.count - 1
              some { targets := upd_targets s.targets h
                       { attempts := a, tstat := TStat.failed_ },
                     count := c,
                     filePresent := if c ≤ 0 then false else s.filePresent }
            else
              some { targets := upd_targets s.targets h
                       { attempts := a, tstat := TStat.pendingRetry },
                     count := s.count, filePresent := s.filePresent }
          else none
      | none => none
  | LEvent.retrySend h =>
      match s.targets.lookup h with
      | some t =>
          if t.tstat = TStat.pendingRetry then
            if s.filePresent then
              some { targets := upd_targets s.targets h
                       { t with tstat := TStat.awaiting },
                     count := s.count, filePresent := s.filePresent }
            else
              some { targets := upd_targets s.targets h
                       { t with tstat := TStat.failed_ },
                     count := s.count - 1, filePresent := s.filePresent }
          else none
      | none => none
  | LEvent.addTarget h =>
      match s.targets.lookup h with
      | none =>
          some { targets := s.targets ++
                   [(h, { attempts := 0, tstat := TStat.awaiting })],
                 count := s.count + 1, filePresent := true }
      | some _ => none
  | LEvent.sendFail h =>
      match s.targets.lookup h with
      | none =>
          some { targets := s.targets, count := s.count, filePresent := false }
      | some _ => none

/-- Run a sequence of ledger events from the empty initial ledger. -/
def run_ledger (events : List LEvent) : Option LedgerState :=
  events.foldl (fun acc e => acc.bind (ledger_step e)) (some initLedger)

/-- The ledger invariant that survives the failed-send path: distinct target
keys; the reference count equals the number of non-terminal targets; a
buffer file on disk implies a positive count (the converse is broken by
`sendFail`); non-terminal targets have not exhausted their attempts. -/
def LedgerInv (s : LedgerState) : Prop :=
  (s.targets.map Prod.fst).Nodup ∧
  s.count = ((s.targets.filter
    (fun p => isNonTerminal p.2.tstat)).length : Int) ∧
  (s.filePresent = true → 0 < s.count) ∧
  ∀ p ∈ s.targets,
    isNonTerminal p.2.tstat = true → p.2.attempts < RETRY_MAX_ATTEMPTS

theorem isNonTerminal_awaiting : isNonTerminal TStat.awaiting = true := rfl

theorem isNonTerminal_pendingRetry : isNonTerminal TStat.pendingRetry = true := rfl

theorem isNonTerminal_delivered : isNonTerminal TStat.delivered = false := rfl

theorem isNonTerminal_failed : isNonTerminal TStat.failed_ = false := rfl

theorem lookup_mem (ts : List (String × Target)) (h : String) (t : Target)
    (hl : ts.lookup h = some t) : (h, t) ∈ ts := by
  induction ts with
  | nil => simp at hl
  | cons p rest ih =>
      obtain ⟨k, v⟩ := p
      rw [List.lookup_cons] at hl
      by_cases he : h = k
      · subst he
        simp only [beq_self_eq_true] at hl
        injection hl with hv
        subst hv
        exact List.mem_cons_self _ _
      · simp only [beq_eq_false_iff_ne.mpr he] at hl
        exact List.mem_cons_of_mem _ (ih hl)

theorem lookup_none_not_mem (ts : List (String × Target)) (h : String)
    (hl : ts.lookup h = none) : h ∉ ts.map Prod.fst := by
  induction ts with
  | nil => simp
  | cons p rest ih =>
      obtain ⟨k, v⟩ := p
      rw [List.lookup_cons] at hl
      by_cases he : h = k
      · subst he
        simp [beq_self_eq_true] at hl
      · simp only [beq_eq_false_iff_ne.mpr he] at hl
        simp only [List.map_cons, List.mem_cons]
        rintro (hc | hc)
        · exact he hc
        · exact ih hl hc

theorem upd_targets_id (ts : List (String × Target)) (h : String) (t : Target)
    (hm : h ∉ ts.map Prod.fst) : upd_targets ts h t = ts := by
  induction ts with
  | nil => rfl
  | cons p rest ih =>
      obtain ⟨k, v⟩ := p
      simp only [List.map_cons, List.mem_cons, not_or] at hm
      have hne : ¬ ((k, v) : String × Target).1 = h := fun hc => hm.1 hc.symm
      simp only [upd_targets, List.map_cons, if_neg hne]
      have := ih hm.2
      simp only [upd_targets] at this
      rw [this]

theorem upd_targets_keys (ts : List (String × Target)) (h : String)
    (t : Target) : (upd_targets ts h t).map Prod.fst = ts.map Prod.fst := by
  induction ts with
  | nil => rfl
  | cons p rest ih =>
      simp only [upd_targets, List.map_cons] at ih ⊢
      by_cases he : p.1 = h
      · rw [if_pos he, ih, he]
      · rw [if_neg he, ih]

theorem mem_upd_targets (ts : List (String × Target)) (h : String)
    (t : Target) (p : String × Target) (hp : p ∈ upd_targets ts h t) :
    p = (h, t) ∨ p ∈ ts := by
  rcases List.mem_map.mp hp with ⟨q, hq, hqe⟩
  by_cases he : q.1 = h
  · left; rw [← hqe, if_pos he]
  · right; rw [← hqe, if_neg he]; exact hq

/-- Effect of a point update on the non-terminal count, given distinct
keys. -/
theorem upd_targets_filter_length (ts : List (String × Target)) (h : String)
    (t0 t : Target) (hnd : (ts.map Prod.fst).Nodup)
    (hl : ts.lookup h = some t0) :
    ((upd_targets ts h t).filter
        (fun p => isNonTerminal p.2.tstat)).length +
      (if isNonTerminal t0.tstat then 1 else 0) =
    (ts.filter (fun p => isNonTerminal p.2.tstat)).length +
      (if isNonTerminal t.tstat then 1 else 0) := by
  induction ts with
  | nil => simp at hl
  | cons p rest ih =>
      obtain ⟨k, v⟩ := p
      simp only [List.map_cons, List.nodup_cons] at hnd
      rw [List.lookup_cons] at hl
      by_cases he : h = k
      · subst he
        simp only [beq_self_eq_true] at hl
        have hv : v = t0 := Option.some.inj hl
        subst hv
        have hrest : upd_targets rest h t = rest := upd_targets_id rest h t hnd.1
        have hcond : ((h, v) : String × Target).1 = h := rfl
        simp only [upd_targets, List.map_cons, if_pos hcond]
        simp only [upd_targets] at hrest
        rw [hrest]
        simp only [List.filter_cons]
        split_ifs <;> simp only [List.length_cons]
      · simp only [beq_eq_false_iff_ne.mpr he] at hl
        have hrec := ih hnd.2 hl
        have hne : ¬ ((k, v) : String × Target).1 = h := fun hc => he hc.symm
        simp only [upd_targets, List.map_cons, if_neg hne]
        simp only [upd_targets] at hrec
        simp only [List.filter_cons]
        split_ifs at hrec ⊢ <;> (try simp only [List.length_cons]) <;> omega

/-- `ledger_step` preserves the ledger invariant. -/
theorem ledger_step_inv (e : LEvent) (s s' : LedgerState)
    (hinv : LedgerInv s) (hstep : ledger_step e s = some s') :
    LedgerInv s' := by
  obtain ⟨hnd, hcount, hfile, hstat⟩ := hinv
  have hmemlen : ∀ (h : String) (t : Target), s.targets.lookup h = some t →
      isNonTerminal t.tstat = true →
      0 < (s.targets.filter (fun p => isNonTerminal p.2.tstat)).length := by
    intro h t hl hnt
    have : (h, t) ∈ s.targets.filter (fun p => isNonTerminal p.2.tstat) :=
      List.mem_filter.mpr ⟨lookup_mem _ _ _ hl, hnt⟩
    exact List.length_pos.mpr (List.ne_nil_of_mem this)
  cases e with
  | deliver h =>
      simp only [ledger_step] at hstep
      cases hlk : s.targets.lookup h with
      | none => simp [hlk] at hstep
      | some t =>
          simp only [hlk] at hstep
          by_cases haw : t.tstat = TStat.awaiting
          · rw [if_pos haw] at hstep
            injection hstep with hstep
            subst hstep
            have hnt : isNonTerminal t.tstat = true := by rw [haw]; rfl
            have hflen := upd_targets_filter_length s.targets h t
              { t with tstat := TStat.delivered } hnd hlk
            rw [if_pos hnt] at hflen
            simp [isNonTerminal_delivered] at hflen
            have hlenpos := hmemlen h t hlk hnt
            refine ⟨?_, ?_, ?_, ?_⟩
            · rw [upd_targets_keys]; exact hnd
            · simp only
              rw [hcount]
              omega
            · simp only
              intro hf
              by_cases hc : s.count - 1 ≤ 0
              · rw [if_pos hc] at hf
                exact absurd hf (by simp)
              · omega
            · intro p hp
              simp only at hp
              rcases mem_upd_targets _ _ _ p hp with rfl | hp
              · intro hc; exact absurd hc (by simp [isNonTerminal])
              · exact hstat p hp
          · rw [if_neg haw] at hstep
            exact absurd hstep (by simp)
  | timeout h =>
      simp only [ledger_step] at hstep
      cases hlk : s.targets.lookup h with
      | none => simp [hlk] at hstep
      | some t =>
          simp only [hlk] at hstep
          by_cases haw : t.tstat = TStat.awaiting
          · rw [if_pos haw] at hstep
            have hnt : isNonTerminal t.tstat = true := by rw [haw]; rfl
            have hlenpos := hmemlen h t hlk hnt
            by_cases hmax : t.attempts + 1 ≥ RETRY_MAX_ATTEMPTS
            · rw [if_pos hmax] at hstep
              injection hstep with hstep
              subst hstep
              have hflen := upd_targets_filter_length s.targets h t
                { attempts := t.attempts + 1, tstat := TStat.failed_ } hnd hlk
              rw [if_pos hnt] at hflen
              simp [isNonTerminal_failed] at hflen
              refine ⟨?_, ?_, ?_, ?_⟩
              · rw [upd_targets_keys]; exact hnd
              · simp only
                rw [hcount]
                omega
              · simp only
                intro hf
                by_cases hc : s.count - 1 ≤ 0
                · rw [if_pos hc] at hf
                  exact absurd hf (by simp)
                · omega
              · intro p hp
                simp only at hp
                rcases mem_upd_targets _ _ _ p hp with rfl | hp
                · intro hc; exact absurd hc (by simp [isNonTerminal])
                · exact hstat p hp
            · rw [if_neg hmax] at hstep
              injection hstep with hstep
              subst hstep
              have hflen := upd_targets_filter_length s.targets h t
                { attempts := t.attempts + 1, tstat := TStat.pendingRetry }
                hnd hlk
              rw [if_pos hnt] at hflen
              simp [isNonTerminal_pendingRetry] at hflen
              refine ⟨?_, ?_, ?_, ?_⟩
              · rw [upd_targets_keys]; exact hnd
              · simp only
                rw [hcount]
                omega
              · exact hfile
              · intro p hp
                simp only at hp
                rcases mem_upd_targets _ _ _ p hp with rfl | hp
                · intro _
                  simp only
                  omega
                · exact hstat p hp
          · rw [if_neg haw] at hstep
            exact absurd hstep (by simp)
  | retrySend h =>
      simp only [ledger_step] at hstep
      cases hlk : s.targets.lookup h with
      | none => simp [hlk] at hstep
      | some t =>
          simp only [hlk] at hstep
          by_cases hpr : t.tstat = TStat.pendingRetry
          · rw [if_pos hpr] at hstep
            have hnt : isNonTerminal t.tstat = true := by rw [hpr]; rfl
            have hlenpos := hmemlen h t hlk hnt
            have hatt : t.attempts < RETRY_MAX_ATTEMPTS :=
              hstat (h, t) (lookup_mem _ _ _ hlk) hnt
            by_cases hfp : s.filePresent = true
            · rw [if_pos hfp] at hstep
              injection hstep with hstep
              subst hstep
              have hflen := upd_targets_filter_length s.targets h t
                { t with tstat := TStat.awaiting } hnd hlk
              rw [if_pos hnt] at hflen
              simp [isNonTerminal_awaiting] at hflen
              refine ⟨?_, ?_, ?_, ?_⟩
              · rw [upd_targets_keys]; exact hnd
              · simp only
                rw [hcount]
                omega
              · exact hfile
              · intro p hp
                simp only at hp
                rcases mem_upd_targets _ _ _ p hp with rfl | hp
                · intro _
                  simp only
                  exact hatt
                · exact hstat p hp
            · rw [if_neg hfp] at hstep
              injection hstep with hstep
              subst hstep
              have hflen := upd_targets_filter_length s.targets h t
                { t with tstat := TStat.failed_ } hnd hlk
              rw [if_pos hnt] at hflen
              simp [isNonTerminal_failed] at hflen
              refine ⟨?_, ?_, ?_, ?_⟩
              · rw [upd_targets_keys]; exact hnd
              · simp only
                rw [hcount]
                omega
              · simp only
                intro hf
                exact absurd hf hfp
              · intro p hp
                simp only at hp
                rcases mem_upd_targets _ _ _ p hp with rfl | hp
                · intro hc; exact absurd hc (by simp [isNonTerminal])
                · exact hstat p hp
          · rw [if_neg hpr] at hstep
            exact absurd hstep (by simp)
  | addTarget h =>
      simp only [ledger_step] at hstep
      cases hlk : s.targets.lookup h with
      | some t => simp [hlk] at hstep
      | none =>
          simp only [hlk] at hstep
          injection hstep with hstep
          subst hstep
          have hnmem := lookup_none_not_mem s.targets h hlk
          refine ⟨?_, ?_, ?_, ?_⟩
          · simp only [List.map_append, List.map_cons, List.map_nil]
            rw [List.nodup_append]
            refine ⟨hnd, List.nodup_singleton h, ?_⟩
            intro a ha hc
            simp only [List.mem_singleton] at hc
            exact hnmem (hc ▸ ha)
          · simp only [List.filter_append, List.length_append,
              List.filter_cons, List.filter_nil]
            simp [isNonTerminal_awaiting]
            rw [hcount]
          · simp only
            intro _
            rw [hcount]
            have : (0 : Int) ≤ ((s.targets.filter
                (fun p => isNonTerminal p.2.tstat)).length : Int) :=
              Int.natCast_nonneg _
            omega
          · intro p hp
            simp only at hp
            rcases List.mem_append.mp hp with hp | hp
            · exact hstat p hp
            · simp only [List.mem_singleton] at hp
              subst hp
              intro _
              simp only
              norm_num [RETRY_MAX_ATTEMPTS]
  | sendFail h =>
      simp only [ledger_step] at hstep
      cases hlk : s.targets.lookup h with
      | some t => simp [hlk] at hstep
      | none =>
          simp only [hlk] at hstep
          injection hstep with hstep
          subst hstep
          refine ⟨hnd, hcount, ?_, hstat⟩
          intro hf
          exact absurd hf (by simp)

theorem run_ledger_none (events : List LEvent) :
    events.foldl (fun acc e => acc.bind (ledger_step e))
      (none : Option LedgerState) = none := by
  induction events with
  | nil => rfl
  | cons e rest ih => simpa using ih

theorem run_ledger_inv (events : List LEvent) (s : LedgerState)
    (hrun : run_ledger events = some s) : LedgerInv s := by
  suffices hgen : ∀ (evs : List LEvent) (s0 : LedgerState), LedgerInv s0 →
      evs.foldl (fun acc e => acc.bind (ledger_step e)) (some s0) = some s →
      LedgerInv s by
    refine hgen events initLedger ?_ hrun
    refine ⟨List.nodup_nil, rfl, by decide, ?_⟩
    intro p hp
    simp [initLedger] at hp
  intro evs
  induction evs with
  | nil =>
      intro s0 h0 hr
      simp only [List.foldl_nil, Option.some.injEq] at hr
      exact hr ▸ h0
  | cons e rest ih =>
      intro s0 h0 hr
      rw [List.foldl_cons] at hr
      simp only [Option.some_bind] at hr
      cases hstep : ledger_step e s0 with
      | none =>
          rw [hstep] at hr
          rw [run_ledger_none rest] at hr
          exact absurd hr (by simp)
      | some s1 =>
          rw [hstep] at hr
          exact ih s1 (ledger_step_inv e s0 s1 h0 hstep) hr

/-- **C2 (amended).** In the reference-counted ledger of
`reticulum_handler.py`, after any valid sequence of per-packet events the
reference count equals the number of targets not yet terminal, and once
every target is terminal (`delivered`, or `attempts ≥ RETRY_MAX_ATTEMPTS =
5`) the buffer file is guaranteed to be gone from disk.  The converse of
the original claim — the file is never removed while some target is still
awaiting proof or retry — is false even here: a first send whose
`packet.send()` returns no receipt removes the buffer file unconditionally
(`send_data_over_link`, lines 956-965), as the concrete trace in the last
conjunct shows — after a successful send to "A" and a failed send to "B"
the file is gone while "A" is still awaiting proof with zero attempts.
(`new_implementation/packet_manager.py` violates the original claim too:
see the counterexample, where one timeout deletes the file while another
target is still awaiting proof.) -/
theorem buffer_refcount_spec (events : List LEvent) (s : LedgerState)
    (hrun : run_ledger events = some s) :
    s.count = ((s.targets.filter
      (fun p => isNonTerminal p.2.tstat)).length : Int) ∧
    ((∀ p ∈ s.targets, p.2.tstat = TStat.delivered ∨
        RETRY_MAX_ATTEMPTS ≤ p.2.attempts) → s.filePresent = false) ∧
    (∃ s2, run_ledger [LEvent.addTarget "A", LEvent.sendFail "B"] = some s2 ∧
      s2.filePresent = false ∧
      ∃ tr, s2.targets.lookup "A" = some tr ∧
        tr.tstat = TStat.awaiting ∧ tr.attempts < RETRY_MAX_ATTEMPTS) := by
  obtain ⟨hnd, hcount, hfile, hstat⟩ := run_ledger_inv events s hrun
  refine ⟨hcount, ?_, ?_⟩
  · intro hall
    by_contra hf
    have hfp : s.filePresent = true := by
      cases hb : s.filePresent
      · exact absurd hb hf
      · rfl
    have hpos := hfile hfp
    rw [hcount] at hpos
    have hex : ∃ p ∈ s.targets, isNonTerminal p.2.tstat = true := by
      have hlen : 0 < (s.targets.filter
          (fun p => isNonTerminal p.2.tstat)).length := by exact_mod_cast hpos
      rcases List.exists_mem_of_ne_nil _
        (List.ne_nil_of_length_pos hlen) with ⟨p, hp⟩
      exact ⟨p, (List.mem_filter.mp hp).1, (List.mem_filter.mp hp).2⟩
    rcases hex with ⟨p, hp, hnt⟩
    rcases hall p hp with hd | ha
    · rw [hd] at hnt
      exact absurd hnt (by simp [isNonTerminal])
    · exact absurd ha (not_le.mpr (hstat p hp hnt))
  · exact ⟨⟨[("A", ⟨0, TStat.awaiting⟩)], 1, false⟩, by decide, rfl,
      ⟨0, TStat.awaiting⟩, by decide, rfl, by norm_num [RETRY_MAX_ATTEMPTS]⟩

/-- Witness for `buffer_refcount_spec`: the concrete trace "send to A, send
to B, proof from A, proof from B"; after the second proof every target is
terminal and the theorem yields that the buffer file is gone. -/
theorem buffer_refcount_spec_witness :
    (run_ledger [LEvent.addTarget "A", LEvent.addTarget "B",
        LEvent.deliver "A", LEvent.deliver "B"]).isSome = true ∧
    ∀ s, run_ledger [LEvent.addTarget "A", LEvent.addTarget "B",
        LEvent.deliver "A", LEvent.deliver "B"] = some s →
      ((∀ p ∈ s.targets, p.2.tstat = TStat.delivered ∨
          RETRY_MAX_ATTEMPTS ≤ p.2.attempts) → s.filePresent = false) :=
  ⟨by decide, fun s hs => (buffer_refcount_spec _ s hs).2.1⟩

end NucleusRH
